import Mathlib

/-!
# A shallow embedding of window.js's module loader (`src/js.cc`)

This file models the module-loading core of the repository: the module
registry (`modules_` / `module_path_by_id_`), the recursive graph loader
(`Js::LoadModuleTree`), source acquisition with virtual modules
(`Js::LoadModuleSource`), diagnostics rendering (`AppendModulePath`),
main-module loading (`Js::LoadMainModule` / `Js::LoadModuleByPath`),
dynamic-import scheduling (`Js::ImportDynamic`), and inline script
execution (`Js::ExecuteScript`).

External collaborators (V8, the filesystem, `std::filesystem` path algebra,
the embedded gzip resources) are modelled as an `Env` of opaque functions:
`readFile` stands for `ReadFile`, `compile` maps a module's source text to
its import specifiers (the result of `v8::ScriptCompiler::CompileModule`
followed by `GetModuleRequests`) or a compile-error message, `joinNormal`
stands for `(dir / spec).lexically_normal()`, `removeFilename` for
`path.remove_filename()`, and `relative p` for
`std::filesystem::relative(p, base_path_)`.

V8 assigns each compiled module a fresh `ScriptId`; the code's own
`ASSERT(module_path_by_id_.find(module->ScriptId()) == module_path_by_id_.end())`
(js.cc:338) records that assumption.  The model makes freshness explicit
with the `nextScriptId` counter.

C++ exceptions set on the isolate and `v8::TryCatch` propagation are
modelled by the `err` constructor carrying the rendered message; the
mutable member maps of `Js` are threaded explicitly through `JsState`.
Recursion in `LoadModuleTree` is fuel-indexed (`outOfFuel` is the marker);
termination of the real recursion is a proved theorem, not an assumption.
-/

namespace WindowJs

/-- First-match association-list lookup, the model of `std::map::find`. -/
def lookupA {κ α : Type} [DecidableEq κ] (k : κ) : List (κ × α) → Option α
  | [] => none
  | (k', v) :: rest => if k = k' then some v else lookupA k rest

/-- A compiled module handle: its engine-assigned script identifier and
the import specifiers reported by `GetModuleRequests`. -/
structure Module where
  scriptId : Nat
  requests : List String
deriving DecidableEq, Repr

/-- Result of a fallible collaborator call (`ReadFile`, `CompileModule`):
either a value or the error message that would be thrown. -/
inductive LoadRes (α : Type) where
  | ok (val : α)
  | err (msg : String)
deriving DecidableEq, Repr

/-- Eventual settlement of a pending top-level-await promise. -/
inductive Settlement where
  | sFulfilled
  | sRejected (msg : String)
deriving DecidableEq, Repr

/-- Outcome of `module->Evaluate(context)` on a root module: it can return
empty (an exception), or a promise that is already fulfilled, already
rejected, or pending with an eventual settlement. -/
inductive EvalOut where
  | evalThrow (msg : String)
  | fulfilled
  | rejected (msg : String)
  | pending (s : Settlement)
deriving DecidableEq, Repr

/-- Outcome of compiling and running one inline script in `ExecuteScript`. -/
inductive ScriptOutcome where
  | compileError (msg : String)
  | runError (msg : String)
  | value (v : String)
deriving DecidableEq, Repr

/-- Observable host-visible events: delegate notifications and promise
settlements of dynamic imports. -/
inductive Event where
  | mainReady
  | report (msg : String)
  | resolveImport (r : Nat)
  | rejectImport (r : Nat) (msg : String)
deriving DecidableEq, Repr

/-- Outcome of `LoadModuleTree` / `LoadModuleByPath`: a module handle, or a
pending exception message; `outOfFuel` is the fuel-exhaustion marker of the
embedding (termination with enough fuel is proved below). -/
inductive LoadOutcome where
  | ok (m : Module)
  | err (msg : String)
  | outOfFuel
deriving DecidableEq, Repr

/-- The result handed back to script code by a dynamic import request: an
already-rejected fresh promise, the promise of an existing pending import,
or a fresh still-pending promise (identified by its resolver id). -/
inductive ImportResult where
  | rejectedInvalid (msg : String)
  | existing (r : Nat)
  | newPending (r : Nat)
deriving DecidableEq, Repr

/-- The mutable state of a `Js` session: `modules_`, `module_path_by_id_`,
`dynamic_imports_` (holding resolver ids), the posted task closures
(each captures its `path_str`), the engine's script-id counter, a counter
for fresh promise resolvers, and `suppress_next_script_result_`. -/
structure JsState where
  modules : List (String × Module)
  pathById : List (Nat × String)
  dynamicImports : List (String × Nat)
  taskQueue : List String
  nextScriptId : Nat
  nextResolver : Nat
  suppressNextScriptResult : Bool
deriving DecidableEq, Repr

/-- The session's fixed collaborators: filesystem, engine compiler,
path algebra, base path, embedded virtual-module sources, and the engine's
instantiate/evaluate behaviour per root path. -/
structure Env where
  readFile : String → LoadRes String
  compile : String → LoadRes (List String)
  joinNormal : String → String → String
  removeFilename : String → String
  relative : String → String
  basePath : String
  consoleSource : String
  welcomeSource : String
  instantiate : String → Option String
  evaluate : String → EvalOut
  script : String → ScriptOutcome

/-- `StartsWith` (util.h): character-wise prefix test. -/
def strStartsWith (name pre : String) : Bool :=
  pre.data.isPrefixOf name.data

/-- `IsValidImport` (js.cc:41): only specifiers starting with `./` or `../`. -/
def isValidImport (name : String) : Bool :=
  strStartsWith name "./" || strStartsWith name "../"

/-- `MakeInvalidImportError` (js.cc:45). -/
def makeInvalidImportError (name : String) : String :=
  "Invalid module name: \x27" ++ name ++ "\x27. Valid imports must begin with ./ or ../"

/-- `AppendModulePath` (js.cc:26): renders the load stack, innermost path
first after `loading`, outer paths after `from`, each relative to the base
path. -/
def appendModulePath (rel : String → String) (paths : List String) : String :=
  match paths.reverse with
  | [] => ""
  | last :: rest =>
    "    loading " ++ rel last ++ "\n" ++
      String.join (rest.map fun p => "       from " ++ rel p ++ "\n")

/-- `Js::LoadModuleSource` (js.cc:391): virtual modules `--console` and
`--welcome` return embedded sources, other `--` names fail, anything else
is read from the filesystem with the load stack rendered into the error. -/
def loadModuleSource (env : Env) (path : String) (paths : List String) :
    LoadRes String :=
  if path = "--console" then .ok env.consoleSource
  else if path = "--welcome" then .ok env.welcomeSource
  else if path.take 2 = "--" then .err ("Invalid module name: " ++ path)
  else
    match env.readFile path with
    | .ok content => .ok content
    | .err e => .err (e ++ "\n" ++ appendModulePath env.relative paths)

/-- Registration step of `LoadModuleTree` (js.cc:340-341): insert into the
path→record map and the id→path map together. -/
def registerModule (path : String) (m : Module) (st : JsState) : JsState :=
  { st with
    modules := (path, m) :: st.modules
    pathById := (m.scriptId, path) :: st.pathById
    nextScriptId := st.nextScriptId + 1 }

/-- The dependency loop of `Js::LoadModuleTree` (js.cc:346-365): validate
each specifier, resolve it against the containing module's directory, and
recurse (through `tree`, the recursive call of `loadModuleTree`) only when
the resolved path is not yet registered, pushing it on the load stack
around the recursive call. -/
def loadDeps (env : Env)
    (tree : String → List String → JsState → JsState × LoadOutcome)
    (dir : String) :
    List String → List String → JsState → Module → JsState × LoadOutcome
  | [], _, st, m => (st, .ok m)
  | spec :: rest, paths, st, m =>
    if isValidImport spec then
      let subpath := env.joinNormal dir spec
      match lookupA subpath st.modules with
      | some _ => loadDeps env tree dir rest paths st m
      | none =>
        match tree subpath (paths ++ [subpath]) st with
        | (st', .ok _) => loadDeps env tree dir rest paths st' m
        | (st', .err e) => (st', .err e)
        | (st', .outOfFuel) => (st', .outOfFuel)
    else (st, .err (makeInvalidImportError spec))

/-- One unrolling of `Js::LoadModuleTree` (js.cc:314): return the
registered record if the path is already present; otherwise load the
source, compile, register the new record (before recursing), and load the
dependencies, recursing through `tree`. -/
def loadModuleTreeStep (env : Env)
    (tree : String → List String → JsState → JsState × LoadOutcome)
    (path : String) (paths : List String) (st : JsState) :
    JsState × LoadOutcome :=
  match lookupA path st.modules with
  | some m => (st, .ok m)
  | none =>
    match loadModuleSource env path paths with
    | .err e => (st, .err e)
    | .ok source =>
      match env.compile source with
      | .err e => (st, .err (e ++ "\n" ++ appendModulePath env.relative paths))
      | .ok reqs =>
        let m : Module := ⟨st.nextScriptId, reqs⟩
        loadDeps env tree (env.removeFilename path)
          reqs paths (registerModule path m st) m

/-- `Js::LoadModuleTree`, tied off with recursion fuel.  The fuel is an
artifact of the embedding: the C++ recursion is unbounded, and its
termination on registry-closed finite path sets is proved below rather
than assumed (`outOfFuel` never occurs with sufficient fuel). -/
def loadModuleTree (env : Env) (fuel : Nat) :
    String → List String → JsState → JsState × LoadOutcome :=
  Nat.rec (motive := fun _ => String → List String → JsState → JsState × LoadOutcome)
    (fun _ _ st => (st, .outOfFuel))
    (fun _ ih => loadModuleTreeStep env ih) fuel

/-- `Js::ResolveModule` (js.cc:371): map the referrer's script id back to
its path, resolve the specifier against its directory, and look the result
up in the registry. -/
def resolveModule (env : Env) (st : JsState) (specifier : String)
    (referrerId : Nat) : Option Module :=
  match lookupA referrerId st.pathById with
  | none => none
  | some refPath =>
    lookupA (env.joinNormal (env.removeFilename refPath) specifier) st.modules

/-- Path of the main module (js.cc:252-253): virtual `--` names are used
verbatim, others are joined against the base path and normalized. -/
def mainModulePath (env : Env) (name : String) : String :=
  if name.take 2 = "--" then name else env.joinNormal env.basePath name

/-- `Js::LoadModuleByPath` (js.cc:266): load the tree, instantiate,
evaluate, then interpret the result promise.  Events record delegate
notifications; for a pending promise the attached continuations
(`OnMainModuleResolve` / `OnMainModuleFailure` / `OnModuleFailure`,
js.cc:454-470) contribute the events of its eventual settlement. -/
def loadModuleByPath (env : Env) (path : String) (isMain : Bool)
    (st : JsState) (fuel : Nat) : JsState × List Event × LoadOutcome :=
  match loadModuleTree env fuel path [path] st with
  | (st', .outOfFuel) => (st', [], .outOfFuel)
  | (st', .err e) => (st', [], .err e)
  | (st', .ok m) =>
    match env.instantiate path with
    | some e => (st', [], .err e)
    | none =>
      match env.evaluate path with
      | .evalThrow e => (st', [], .err e)
      | .rejected e => (st', [], .err e)
      | .fulfilled =>
        (st', if isMain then [.mainReady] else [], .ok m)
      | .pending s =>
        (st',
         (if isMain then
            match s with
            | .sFulfilled => [.mainReady]
            | .sRejected e => [.report e, .mainReady]
          else
            match s with
            | .sFulfilled => []
            | .sRejected e => [.report e]),
         .ok m)

/-- `Js::LoadMainModule` (js.cc:247): resolve the name, load as main; on an
empty result report the caught exception and notify the delegate. -/
def loadMainModule (env : Env) (name : String) (st : JsState) (fuel : Nat) :
    JsState × List Event :=
  match loadModuleByPath env (mainModulePath env name) true st fuel with
  | (st', evs, .ok _) => (st', evs)
  | (st', evs, .err e) => (st', evs ++ [.report e, .mainReady])
  | (st', evs, .outOfFuel) => (st', evs)

/-- Path resolution of `Js::ImportDynamic` (js.cc:500-511): resolve the
specifier against the referring module's directory, or against the base
path when the request comes from inline `<console>` evaluation. -/
def resolveDynamicPath (env : Env) (ref spec : String) : String :=
  env.joinNormal
    (if ref = "<console>" then env.basePath else env.removeFilename ref) spec

/-- `Js::ImportDynamic` (js.cc:481), the request path: validate the
specifier (invalid ones yield an already-rejected promise synchronously),
resolve against the referrer's directory, dedupe against
`dynamic_imports_`, and otherwise store a fresh resolver and post one task
carrying the resolved path.  Resolver identity is modelled by a counter;
the resolver object C++ allocates and discards on the deduped path has no
observable identity and is not modelled. -/
def importDynamicRequest (env : Env) (ref : String) (spec : String)
    (st : JsState) : JsState × ImportResult :=
  if isValidImport spec then
    let path := resolveDynamicPath env ref spec
    match lookupA path st.dynamicImports with
    | some r => (st, .existing r)
    | none =>
      ({ st with
         dynamicImports := (path, st.nextResolver) :: st.dynamicImports
         nextResolver := st.nextResolver + 1
         taskQueue := st.taskQueue ++ [path] },
       .newPending st.nextResolver)
  else (st, .rejectedInvalid (makeInvalidImportError spec))

/-- `Js::ImportDynamic(std::string)` (js.cc:528), the deferred task: take
the stored resolver out of `dynamic_imports_`, perform the load as a
non-main module, and settle the resolver accordingly. -/
def runDynamicImportTask (env : Env) (path : String) (st : JsState)
    (fuel : Nat) : JsState × List Event :=
  match lookupA path st.dynamicImports with
  | none => (st, [])
  | some r =>
    let st0 := { st with
      dynamicImports := st.dynamicImports.filter fun e => e.1 ≠ path }
    match loadModuleByPath env path false st0 fuel with
    | (st', evs, .ok _) => (st', evs ++ [.resolveImport r])
    | (st', evs, .err e) => (st', evs ++ [.rejectImport r e])
    | (st', evs, .outOfFuel) => (st', evs)

/-- `Js::SuppressNextScriptResult` (js.cc:198). -/
def suppressNextResult (st : JsState) : JsState :=
  { st with suppressNextScriptResult := true }

/-- `Js::ExecuteScript` (js.cc:202): a compile failure reports and returns
nothing (leaving the suppression flag untouched); a runtime throw clears
the flag, reports, and returns nothing; a successful run returns nothing
and clears the flag when suppression was requested, and the stringified
result otherwise. -/
def executeScript (env : Env) (source : String) (st : JsState) :
    Option String × JsState × List Event :=
  match env.script source with
  | .compileError m => (none, st, [.report m])
  | .runError m =>
    (none, { st with suppressNextScriptResult := false }, [.report m])
  | .value v =>
    if st.suppressNextScriptResult then
      (none, { st with suppressNextScriptResult := false }, [])
    else (some v, st, [])

/-- The state of a fresh session (`Js::Js`, js.cc:75: empty maps, the
suppression flag cleared). -/
def initState : JsState :=
  { modules := [], pathById := [], dynamicImports := [], taskQueue := []
    nextScriptId := 0, nextResolver := 0, suppressNextScriptResult := false }

/-! ## Invariants and measures -/

/-- Entries of the path→record map survive a state transition. -/
def ModulesPres (st st' : JsState) : Prop :=
  ∀ p m, lookupA p st.modules = some m → lookupA p st'.modules = some m

/-- Entries of the id→path map survive a state transition. -/
def ByIdPres (st st' : JsState) : Prop :=
  ∀ i p, lookupA i st.pathById = some p → lookupA i st'.pathById = some p

/-- The two registry indexes agree: every registered record's script id
maps back to its path, and every id-index entry is backed by a registered
record carrying that id. -/
def IndexesAgree (st : JsState) : Prop :=
  (∀ p m, lookupA p st.modules = some m →
    lookupA m.scriptId st.pathById = some p) ∧
  (∀ i p, lookupA i st.pathById = some p →
    ∃ m, lookupA p st.modules = some m ∧ m.scriptId = i)

/-- All assigned script ids are below the engine's counter, so the next
compiled module's id is fresh (the assumption recorded by the `ASSERT` at
js.cc:338). -/
def IdBound (st : JsState) : Prop :=
  ∀ i p, lookupA i st.pathById = some p → i < st.nextScriptId

/-- Registry well-formedness: the session invariant of `Js`. -/
def WF (st : JsState) : Prop := IndexesAgree st ∧ IdBound st

/-- The source text a path would load, ignoring the diagnostic chain
(`loadModuleSource` stripped of its error messages). -/
def sourceOf (env : Env) (path : String) : Option String :=
  if path = "--console" then some env.consoleSource
  else if path = "--welcome" then some env.welcomeSource
  else if path.take 2 = "--" then none
  else
    match env.readFile path with
    | .ok content => some content
    | .err _ => none

/-- The import specifiers a path's module would declare, when it loads and
compiles. -/
def depsOf (env : Env) (path : String) : Option (List String) :=
  match sourceOf env path with
  | none => none
  | some s =>
    match env.compile s with
    | .ok reqs => some reqs
    | .err _ => none

/-- `U` is import-closed: resolving any specifier of any loadable module
of `U` lands back in `U`.  A finite import graph is such a set. -/
def ClosedUnder (env : Env) (U : Finset String) : Prop :=
  ∀ p ∈ U, ∀ spec ∈ (depsOf env p).getD [],
    env.joinNormal (env.removeFilename p) spec ∈ U

instance (env : Env) (U : Finset String) : Decidable (ClosedUnder env U) := by
  unfold ClosedUnder
  infer_instance

/-- How many paths of `U` are not yet registered: the termination measure
of the graph load. -/
def missingCount (U : Finset String) (st : JsState) : Nat :=
  (U.filter fun u => lookupA u st.modules = none).card

/-! ## Concrete environments for witnesses -/

/-- A two-module cyclic import graph: `A.js` imports `./B.js`, and
`B.js` imports `./A.js`. -/
def cycEnv : Env :=
  { readFile := fun p =>
      if p = "A.js" then .ok "import B" else
      if p = "B.js" then .ok "import A" else .err ("File not found: " ++ p)
    compile := fun s =>
      if s = "import B" then .ok ["./B.js"] else
      if s = "import A" then .ok ["./A.js"] else .ok []
    joinNormal := fun _ s => s.drop 2
    removeFilename := fun _ => ""
    relative := fun p => p
    basePath := "."
    consoleSource := ""
    welcomeSource := ""
    instantiate := fun _ => none
    evaluate := fun _ => .fulfilled
    script := fun _ => .value "" }

/-- The closed path universe of `cycEnv`. -/
def cycU : Finset String := {"A.js", "B.js"}

/-- A three-level chain `main.js` → `./util.js` → `./helpers.js` where
`helpers.js` is unreadable. -/
def diagEnv : Env :=
  { readFile := fun p =>
      if p = "main.js" then .ok "import util" else
      if p = "util.js" then .ok "import helpers" else
      .err ("File not found: " ++ p)
    compile := fun s =>
      if s = "import util" then .ok ["./util.js"] else
      if s = "import helpers" then .ok ["./helpers.js"] else .ok []
    joinNormal := fun _ s => if strStartsWith s "./" then s.drop 2 else s
    removeFilename := fun _ => ""
    relative := fun p => p
    basePath := "."
    consoleSource := ""
    welcomeSource := ""
    instantiate := fun _ => none
    evaluate := fun _ => .fulfilled
    script := fun _ => .value "" }

/-- A one-module environment with scripted evaluation outcomes, used to
instantiate hypotheses of the claims at concrete inputs. -/
def exEnv : Env :=
  { readFile := fun p =>
      if p = "a.js" then .ok "" else .err ("File not found: " ++ p)
    compile := fun _ => .ok []
    joinNormal := fun d s => d ++ s
    removeFilename := fun _ => ""
    relative := fun p => p
    basePath := ""
    consoleSource := "console-src"
    welcomeSource := "welcome-src"
    instantiate := fun _ => none
    evaluate := fun _ => .fulfilled
    script := fun s =>
      if s = "bad(" then .compileError "SyntaxError: unexpected end of input"
      else if s = "throw 1" then .runError "Uncaught 1"
      else .value s }

/-- A session state with one registered module, for witnesses that need a
non-empty registry. -/
def oneModState : JsState :=
  { modules := [("a.js", ⟨0, []⟩)], pathById := [(0, "a.js")]
    dynamicImports := [], taskQueue := [], nextScriptId := 1
    nextResolver := 0, suppressNextScriptResult := false }

/-! ## Unfolding lemmas -/

theorem lookupA_cons {κ α : Type} [DecidableEq κ] (k k' : κ) (v : α)
    (l : List (κ × α)) :
    lookupA k ((k', v) :: l) = if k = k' then some v else lookupA k l := rfl

theorem loadModuleTree_zero (env : Env) (path : String) (paths : List String)
    (st : JsState) : loadModuleTree env 0 path paths st = (st, .outOfFuel) := rfl

theorem loadModuleTree_succ (env : Env) (fuel : Nat) (path : String)
    (paths : List String) (st : JsState) :
    loadModuleTree env (fuel + 1) path paths st =
      loadModuleTreeStep env (loadModuleTree env fuel) path paths st := rfl

theorem loadModuleTreeStep_hit (env : Env) (tree) (path : String)
    (paths : List String) (st : JsState) (m : Module)
    (h : lookupA path st.modules = some m) :
    loadModuleTreeStep env tree path paths st = (st, .ok m) := by
  simp [loadModuleTreeStep, h]

theorem loadModuleTreeStep_srcErr (env : Env) (tree) (path : String)
    (paths : List String) (st : JsState) (e : String)
    (h : lookupA path st.modules = none)
    (hs : loadModuleSource env path paths = .err e) :
    loadModuleTreeStep env tree path paths st = (st, .err e) := by
  simp [loadModuleTreeStep, h, hs]

theorem loadModuleTreeStep_cmpErr (env : Env) (tree) (path : String)
    (paths : List String) (st : JsState) (source e : String)
    (h : lookupA path st.modules = none)
    (hs : loadModuleSource env path paths = .ok source)
    (hc : env.compile source = .err e) :
    loadModuleTreeStep env tree path paths st =
      (st, .err (e ++ "\n" ++ appendModulePath env.relative paths)) := by
  simp [loadModuleTreeStep, h, hs, hc]

theorem loadModuleTreeStep_reg (env : Env) (tree) (path : String)
    (paths : List String) (st : JsState) (source : String)
    (reqs : List String)
    (h : lookupA path st.modules = none)
    (hs : loadModuleSource env path paths = .ok source)
    (hc : env.compile source = .ok reqs) :
    loadModuleTreeStep env tree path paths st =
      loadDeps env tree (env.removeFilename path) reqs paths
        (registerModule path ⟨st.nextScriptId, reqs⟩ st)
        ⟨st.nextScriptId, reqs⟩ := by
  simp [loadModuleTreeStep, h, hs, hc]

theorem loadDeps_nil (env : Env) (tree) (dir : String) (paths : List String)
    (st : JsState) (m : Module) :
    loadDeps env tree dir [] paths st m = (st, .ok m) := rfl

theorem loadDeps_cons_invalid (env : Env) (tree) (dir spec : String)
    (rest paths : List String) (st : JsState) (m : Module)
    (h : isValidImport spec = false) :
    loadDeps env tree dir (spec :: rest) paths st m =
      (st, .err (makeInvalidImportError spec)) := by
  simp [loadDeps, h]

theorem loadDeps_cons_hit (env : Env) (tree) (dir spec : String)
    (rest paths : List String) (st : JsState) (m m' : Module)
    (hv : isValidImport spec = true)
    (hh : lookupA (env.joinNormal dir spec) st.modules = some m') :
    loadDeps env tree dir (spec :: rest) paths st m =
      loadDeps env tree dir rest paths st m := by
  simp [loadDeps, hv, hh]

theorem loadDeps_cons_miss (env : Env) (tree) (dir spec : String)
    (rest paths : List String) (st : JsState) (m : Module)
    (hv : isValidImport spec = true)
    (hh : lookupA (env.joinNormal dir spec) st.modules = none) :
    loadDeps env tree dir (spec :: rest) paths st m =
      match tree (env.joinNormal dir spec)
          (paths ++ [env.joinNormal dir spec]) st with
      | (st', .ok _) => loadDeps env tree dir rest paths st' m
      | (st', .err e) => (st', .err e)
      | (st', .outOfFuel) => (st', .outOfFuel) := by
  simp [loadDeps, hv, hh]

/-! ## Registry preservation: nothing already registered is ever removed
or overwritten -/

theorem modulesPres_refl (st : JsState) : ModulesPres st st := fun _ _ h => h

theorem modulesPres_trans {a b c : JsState} (h1 : ModulesPres a b)
    (h2 : ModulesPres b c) : ModulesPres a c :=
  fun p m h => h2 p m (h1 p m h)

theorem byIdPres_refl (st : JsState) : ByIdPres st st := fun _ _ h => h

theorem byIdPres_trans {a b c : JsState} (h1 : ByIdPres a b)
    (h2 : ByIdPres b c) : ByIdPres a c :=
  fun i p h => h2 i p (h1 i p h)

theorem registerModule_modulesPres (path : String) (m : Module)
    (st : JsState) (h : lookupA path st.modules = none) :
    ModulesPres st (registerModule path m st) := by
  intro p m' hp
  rcases eq_or_ne p path with rfl | hne
  · rw [h] at hp; cases hp
  · simpa [registerModule, lookupA_cons, hne] using hp

theorem loadDeps_modulesPres_of (env : Env) (tree)
    (htree : ∀ p ps st, ModulesPres st (tree p ps st).1) :
    ∀ (reqs : List String) (dir : String) (paths : List String)
      (st : JsState) (m : Module),
      ModulesPres st (loadDeps env tree dir reqs paths st m).1 := by
  intro reqs
  induction reqs with
  | nil => intro dir paths st m; exact modulesPres_refl st
  | cons spec rest ih =>
    intro dir paths st m
    cases hv : isValidImport spec with
    | false => rw [loadDeps_cons_invalid env tree dir spec rest paths st m hv]
               exact modulesPres_refl st
    | true =>
      cases hh : lookupA (env.joinNormal dir spec) st.modules with
      | some m' =>
        rw [loadDeps_cons_hit env tree dir spec rest paths st m m' hv hh]
        exact ih dir paths st m
      | none =>
        rw [loadDeps_cons_miss env tree dir spec rest paths st m hv hh]
        rcases hres : tree (env.joinNormal dir spec)
            (paths ++ [env.joinNormal dir spec]) st with ⟨st', out⟩
        have hpres : ModulesPres st st' := by
          have := htree (env.joinNormal dir spec)
            (paths ++ [env.joinNormal dir spec]) st
          rwa [hres] at this
        cases out with
        | ok m'' => exact modulesPres_trans hpres (ih dir paths st' m)
        | err e => exact hpres
        | outOfFuel => exact hpres

theorem loadModuleTree_modulesPres (env : Env) :
    ∀ (fuel : Nat) (path : String) (paths : List String) (st : JsState),
      ModulesPres st (loadModuleTree env fuel path paths st).1 := by
  intro fuel
  induction fuel with
  | zero => intro path paths st; exact modulesPres_refl st
  | succ fuel ih =>
    intro path paths st
    rw [loadModuleTree_succ]
    cases h : lookupA path st.modules with
    | some m =>
      rw [loadModuleTreeStep_hit env _ path paths st m h]
      exact modulesPres_refl st
    | none =>
      cases hs : loadModuleSource env path paths with
      | err e =>
        rw [loadModuleTreeStep_srcErr env _ path paths st e h hs]
        exact modulesPres_refl st
      | ok source =>
        cases hc : env.compile source with
        | err e =>
          rw [loadModuleTreeStep_cmpErr env _ path paths st source e h hs hc]
          exact modulesPres_refl st
        | ok reqs =>
          rw [loadModuleTreeStep_reg env _ path paths st source reqs h hs hc]
          exact modulesPres_trans
            (registerModule_modulesPres path ⟨st.nextScriptId, reqs⟩ st h)
            (loadDeps_modulesPres_of env _ ih reqs (env.removeFilename path)
              paths (registerModule path ⟨st.nextScriptId, reqs⟩ st)
              ⟨st.nextScriptId, reqs⟩)

/-! ## Well-formedness: both registry indexes updated together stay in
agreement, with fresh script ids -/

theorem registerModule_WF (path : String) (reqs : List String) (st : JsState)
    (hnone : lookupA path st.modules = none) (hwf : WF st) :
    WF (registerModule path ⟨st.nextScriptId, reqs⟩ st) ∧
    ByIdPres st (registerModule path ⟨st.nextScriptId, reqs⟩ st) := by
  obtain ⟨⟨hfwd, hbwd⟩, hbound⟩ := hwf
  have hpresId : ByIdPres st (registerModule path ⟨st.nextScriptId, reqs⟩ st) := by
    intro i p hip
    have hi : i < st.nextScriptId := hbound i p hip
    have hne : i ≠ st.nextScriptId := Nat.ne_of_lt hi
    simpa [registerModule, lookupA_cons, hne] using hip
  refine ⟨⟨⟨?_, ?_⟩, ?_⟩, hpresId⟩
  · intro p m hp
    rcases eq_or_ne p path with rfl | hnep
    · simp only [registerModule, lookupA_cons, if_pos rfl] at hp
      cases hp
      simp [registerModule, lookupA_cons]
    · simp only [registerModule, lookupA_cons, if_neg hnep] at hp
      have hold := hfwd p m hp
      have hlt : m.scriptId < st.nextScriptId := hbound m.scriptId p hold
      have hne : m.scriptId ≠ st.nextScriptId := Nat.ne_of_lt hlt
      simpa [registerModule, lookupA_cons, hne] using hold
  · intro i p hip
    rcases eq_or_ne i st.nextScriptId with rfl | hnei
    · simp only [registerModule, lookupA_cons, if_pos rfl] at hip
      cases hip
      exact ⟨⟨st.nextScriptId, reqs⟩, by simp [registerModule, lookupA_cons], rfl⟩
    · simp only [registerModule, lookupA_cons, if_neg hnei] at hip
      obtain ⟨m, hm, hid⟩ := hbwd i p hip
      have hnep : p ≠ path := by
        intro hpp
        rw [hpp, hnone] at hm
        cases hm
      exact ⟨m, by simpa [registerModule, lookupA_cons, hnep] using hm, hid⟩
  · intro i p hip
    rcases eq_or_ne i st.nextScriptId with rfl | hnei
    · simp [registerModule]
    · simp only [registerModule, lookupA_cons, if_neg hnei] at hip
      have := hbound i p hip
      simp only [registerModule]
      omega

theorem loadDeps_WF_of (env : Env) (tree)
    (htree : ∀ p ps st, WF st →
      WF (tree p ps st).1 ∧ ByIdPres st (tree p ps st).1) :
    ∀ (reqs : List String) (dir : String) (paths : List String)
      (st : JsState) (m : Module), WF st →
      WF (loadDeps env tree dir reqs paths st m).1 ∧
      ByIdPres st (loadDeps env tree dir reqs paths st m).1 := by
  intro reqs
  induction reqs with
  | nil => intro dir paths st m hwf; exact ⟨hwf, byIdPres_refl st⟩
  | cons spec rest ih =>
    intro dir paths st m hwf
    cases hv : isValidImport spec with
    | false =>
      rw [loadDeps_cons_invalid env tree dir spec rest paths st m hv]
      exact ⟨hwf, byIdPres_refl st⟩
    | true =>
      cases hh : lookupA (env.joinNormal dir spec) st.modules with
      | some m' =>
        rw [loadDeps_cons_hit env tree dir spec rest paths st m m' hv hh]
        exact ih dir paths st m hwf
      | none =>
        rw [loadDeps_cons_miss env tree dir spec rest paths st m hv hh]
        rcases hres : tree (env.joinNormal dir spec)
            (paths ++ [env.joinNormal dir spec]) st with ⟨st', out⟩
        have hstep := htree (env.joinNormal dir spec)
          (paths ++ [env.joinNormal dir spec]) st hwf
        rw [hres] at hstep
        obtain ⟨hwf', hpres'⟩ := hstep
        cases out with
        | ok m'' =>
          obtain ⟨hwf'', hpres''⟩ := ih dir paths st' m hwf'
          exact ⟨hwf'', byIdPres_trans hpres' hpres''⟩
        | err e => exact ⟨hwf', hpres'⟩
        | outOfFuel => exact ⟨hwf', hpres'⟩

theorem loadModuleTree_WF (env : Env) :
    ∀ (fuel : Nat) (path : String) (paths : List String) (st : JsState),
      WF st →
      WF (loadModuleTree env fuel path paths st).1 ∧
      ByIdPres st (loadModuleTree env fuel path paths st).1 := by
  intro fuel
  induction fuel with
  | zero => intro path paths st hwf; exact ⟨hwf, byIdPres_refl st⟩
  | succ fuel ih =>
    intro path paths st hwf
    rw [loadModuleTree_succ]
    cases h : lookupA path st.modules with
    | some m =>
      rw [loadModuleTreeStep_hit env _ path paths st m h]
      exact ⟨hwf, byIdPres_refl st⟩
    | none =>
      cases hs : loadModuleSource env path paths with
      | err e =>
        rw [loadModuleTreeStep_srcErr env _ path paths st e h hs]
        exact ⟨hwf, byIdPres_refl st⟩
      | ok source =>
        cases hc : env.compile source with
        | err e =>
          rw [loadModuleTreeStep_cmpErr env _ path paths st source e h hs hc]
          exact ⟨hwf, byIdPres_refl st⟩
        | ok reqs =>
          rw [loadModuleTreeStep_reg env _ path paths st source reqs h hs hc]
          obtain ⟨hwf1, hpres1⟩ := registerModule_WF path reqs st h hwf
          obtain ⟨hwf2, hpres2⟩ := loadDeps_WF_of env _ ih reqs
            (env.removeFilename path) paths
            (registerModule path ⟨st.nextScriptId, reqs⟩ st)
            ⟨st.nextScriptId, reqs⟩ hwf1
          exact ⟨hwf2, byIdPres_trans hpres1 hpres2⟩

/-! ## Termination of the depth-first graph load -/

theorem sourceOf_of_loadModuleSource (env : Env) (path : String)
    (paths : List String) (s : String)
    (h : loadModuleSource env path paths = .ok s) :
    sourceOf env path = some s := by
  unfold loadModuleSource at h
  unfold sourceOf
  split_ifs at h ⊢ with h1 h2 h3
  · simp only [LoadRes.ok.injEq] at h
    rw [h]
  · simp only [LoadRes.ok.injEq] at h
    rw [h]
  · cases hr : env.readFile path with
    | ok content =>
      rw [hr] at h
      simp only [LoadRes.ok.injEq] at h
      simp [h]
    | err e =>
      rw [hr] at h
      simp at h

theorem depsOf_of_load (env : Env) (path : String) (paths : List String)
    (source : String) (reqs : List String)
    (hs : loadModuleSource env path paths = .ok source)
    (hc : env.compile source = .ok reqs) :
    depsOf env path = some reqs := by
  simp [depsOf, sourceOf_of_loadModuleSource env path paths source hs, hc]

theorem missingCount_le_of_pres (U : Finset String) (st st' : JsState)
    (h : ModulesPres st st') : missingCount U st' ≤ missingCount U st := by
  apply Finset.card_le_card
  intro u hu
  rw [Finset.mem_filter] at hu ⊢
  refine ⟨hu.1, ?_⟩
  cases hl : lookupA u st.modules with
  | none => rfl
  | some m =>
    have := h u m hl
    rw [hu.2] at this
    cases this

theorem missingCount_register_lt (U : Finset String) (path : String)
    (m : Module) (st : JsState) (hU : path ∈ U)
    (hnone : lookupA path st.modules = none) :
    missingCount U (registerModule path m st) < missingCount U st := by
  apply Finset.card_lt_card
  rw [Finset.ssubset_iff_of_subset]
  · refine ⟨path, ?_, ?_⟩
    · rw [Finset.mem_filter]; exact ⟨hU, hnone⟩
    · rw [Finset.mem_filter]
      simp [registerModule, lookupA_cons]
  · intro u hu
    rw [Finset.mem_filter] at hu ⊢
    refine ⟨hu.1, ?_⟩
    have := hu.2
    by_cases hup : u = path
    · simp [registerModule, lookupA_cons, hup] at this
    · simpa [registerModule, lookupA_cons, hup] using this

theorem loadDeps_term_of (env : Env) (U : Finset String) (N : Nat) (tree)
    (htreePres : ∀ p ps st, ModulesPres st (tree p ps st).1)
    (htree : ∀ p ps st, p ∈ U → missingCount U st < N →
      (tree p ps st).2 ≠ .outOfFuel) :
    ∀ (reqs : List String) (dir : String) (paths : List String)
      (st : JsState) (m : Module),
      (∀ spec ∈ reqs, env.joinNormal dir spec ∈ U) →
      missingCount U st < N →
      (loadDeps env tree dir reqs paths st m).2 ≠ .outOfFuel := by
  intro reqs
  induction reqs with
  | nil => intro dir paths st m _ _; rw [loadDeps_nil]; exact fun h => by cases h
  | cons spec rest ih =>
    intro dir paths st m hmem hlt
    cases hv : isValidImport spec with
    | false =>
      rw [loadDeps_cons_invalid env tree dir spec rest paths st m hv]
      exact fun h => by cases h
    | true =>
      cases hh : lookupA (env.joinNormal dir spec) st.modules with
      | some m' =>
        rw [loadDeps_cons_hit env tree dir spec rest paths st m m' hv hh]
        exact ih dir paths st m (fun q hq => hmem q (List.mem_cons_of_mem spec hq)) hlt
      | none =>
        rw [loadDeps_cons_miss env tree dir spec rest paths st m hv hh]
        rcases hres : tree (env.joinNormal dir spec)
            (paths ++ [env.joinNormal dir spec]) st with ⟨st', out⟩
        have hsub : env.joinNormal dir spec ∈ U :=
          hmem spec (List.mem_cons_self spec rest)
        have hout : out ≠ .outOfFuel := by
          have := htree (env.joinNormal dir spec)
            (paths ++ [env.joinNormal dir spec]) st hsub hlt
          rwa [hres] at this
        have hpres : ModulesPres st st' := by
          have := htreePres (env.joinNormal dir spec)
            (paths ++ [env.joinNormal dir spec]) st
          rwa [hres] at this
        cases out with
        | ok m'' =>
          exact ih dir paths st' m
            (fun q hq => hmem q (List.mem_cons_of_mem spec hq))
            (Nat.lt_of_le_of_lt (missingCount_le_of_pres U st st' hpres) hlt)
        | err e => exact fun h => by cases h
        | outOfFuel => exact absurd rfl hout

theorem loadModuleTree_term (env : Env) (U : Finset String)
    (hcl : ClosedUnder env U) :
    ∀ (fuel : Nat) (path : String) (paths : List String) (st : JsState),
      path ∈ U → missingCount U st < fuel →
      (loadModuleTree env fuel path paths st).2 ≠ .outOfFuel := by
  intro fuel
  induction fuel with
  | zero => intro path paths st _ h; exact absurd h (Nat.not_lt_zero _)
  | succ fuel ih =>
    intro path paths st hU hlt
    rw [loadModuleTree_succ]
    cases h : lookupA path st.modules with
    | some m =>
      rw [loadModuleTreeStep_hit env _ path paths st m h]
      exact fun hx => by cases hx
    | none =>
      cases hs : loadModuleSource env path paths with
      | err e =>
        rw [loadModuleTreeStep_srcErr env _ path paths st e h hs]
        exact fun hx => by cases hx
      | ok source =>
        cases hc : env.compile source with
        | err e =>
          rw [loadModuleTreeStep_cmpErr env _ path paths st source e h hs hc]
          exact fun hx => by cases hx
        | ok reqs =>
          rw [loadModuleTreeStep_reg env _ path paths st source reqs h hs hc]
          have hdeps : depsOf env path = some reqs :=
            depsOf_of_load env path paths source reqs hs hc
          have hmem : ∀ spec ∈ reqs,
              env.joinNormal (env.removeFilename path) spec ∈ U := by
            intro spec hq
            have := hcl path hU spec
            rw [hdeps] at this
            exact this hq
          have hless : missingCount U
              (registerModule path ⟨st.nextScriptId, reqs⟩ st) < fuel := by
            have h1 := missingCount_register_lt U path
              ⟨st.nextScriptId, reqs⟩ st hU h
            omega
          exact loadDeps_term_of env U fuel (loadModuleTree env fuel)
            (loadModuleTree_modulesPres env fuel) (ih) reqs
            (env.removeFilename path) paths
            (registerModule path ⟨st.nextScriptId, reqs⟩ st)
            ⟨st.nextScriptId, reqs⟩ hmem hless

/-! ## Small facts used by the claims and witnesses -/

theorem loadModuleTree_hit (env : Env) (fuel : Nat) (path : String)
    (paths : List String) (st : JsState) (m : Module)
    (h : lookupA path st.modules = some m) :
    loadModuleTree env (fuel + 1) path paths st = (st, .ok m) := by
  rw [loadModuleTree_succ]
  exact loadModuleTreeStep_hit env _ path paths st m h

theorem wf_initState : WF initState := by
  refine ⟨⟨?_, ?_⟩, ?_⟩
  · intro p m hp; cases hp
  · intro i p hip; cases hip
  · intro i p hip; cases hip

theorem wf_oneModState : WF oneModState := by
  refine ⟨⟨?_, ?_⟩, ?_⟩
  · intro p m hp
    rcases eq_or_ne p "a.js" with rfl | hne
    · simp only [oneModState, lookupA_cons, if_pos rfl] at hp
      cases hp
      simp [oneModState, lookupA_cons]
    · simp [oneModState, lookupA, hne] at hp
  · intro i p hip
    rcases eq_or_ne i 0 with rfl | hne
    · simp only [oneModState, lookupA_cons, if_pos rfl] at hip
      cases hip
      exact ⟨⟨0, []⟩, by simp [oneModState, lookupA_cons], rfl⟩
    · simp [oneModState, lookupA, hne] at hip
  · intro i p hip
    rcases eq_or_ne i 0 with rfl | hne
    · simp [oneModState]
    · simp [oneModState, lookupA, hne] at hip

/-! ## The claims -/

/-- C6: an import specifier that does not begin with `./` or `../` is
rejected with exactly the message
`Invalid module name: '<name>'. Valid imports must begin with ./ or ../`
carrying the offending text verbatim.  In the static dependency loop the
rejection is immediate — the state is returned untouched and the `err`
outcome aborts the remaining requests of the whole load, regardless of the
environment, so no filesystem access happens for that specifier — and a
dynamic request returns an already-rejected promise synchronously with the
same message, posting no task.  Validity itself is exactly the two-prefix
test. -/
theorem claim_C6_invalid_specifier (spec : String)
    (hinv : isValidImport spec = false) :
    (∀ (env : Env) (tree) (dir : String) (rest paths : List String)
        (st : JsState) (m : Module),
        loadDeps env tree dir (spec :: rest) paths st m =
          (st, .err ("Invalid module name: \x27" ++ spec ++
            "\x27. Valid imports must begin with ./ or ../"))) ∧
    (∀ (env : Env) (ref : String) (st : JsState),
        importDynamicRequest env ref spec st =
          (st, .rejectedInvalid ("Invalid module name: \x27" ++ spec ++
            "\x27. Valid imports must begin with ./ or ../"))) ∧
    (∀ s : String,
        isValidImport s = (strStartsWith s "./" || strStartsWith s "../")) := by
  refine ⟨?_, ?_, fun s => rfl⟩
  · intro env tree dir rest paths st m
    exact loadDeps_cons_invalid env tree dir spec rest paths st m hinv
  · intro env ref st
    simp [importDynamicRequest, hinv, makeInvalidImportError]

theorem claim_C6_invalid_specifier_witness :
    isValidImport "lodash" = false ∧
    loadDeps exEnv (fun _ _ s => (s, .outOfFuel)) "" ["lodash"] ["a.js"]
        initState ⟨0, []⟩ =
      (initState, .err
        "Invalid module name: \x27lodash\x27. Valid imports must begin with ./ or ../") ∧
    importDynamicRequest exEnv "<console>" "lodash" initState =
      (initState, .rejectedInvalid
        "Invalid module name: \x27lodash\x27. Valid imports must begin with ./ or ../") :=
  ⟨by decide,
   (claim_C6_invalid_specifier "lodash" (by decide)).1 exEnv
     (fun _ _ s => (s, .outOfFuel)) "" [] ["a.js"] initState ⟨0, []⟩,
   (claim_C6_invalid_specifier "lodash" (by decide)).2.1 exEnv "<console>"
     initState⟩

/-- C7: the virtual modules `--console` and `--welcome` yield their fixed
embedded sources for any environment — in particular regardless of the
base path, of the load stack and of the filesystem, none of which the
result mentions — any other path starting with the `--` prefix fails with
the unknown-virtual-module error before any filesystem read (the result is
again independent of `readFile`), and a `--` main-module name bypasses
base-path resolution entirely. -/
theorem claim_C7_virtual_modules :
    (∀ (env : Env) (paths : List String),
        loadModuleSource env "--console" paths = .ok env.consoleSource) ∧
    (∀ (env : Env) (paths : List String),
        loadModuleSource env "--welcome" paths = .ok env.welcomeSource) ∧
    (∀ (env : Env) (path : String) (paths : List String),
        path.take 2 = "--" → path ≠ "--console" → path ≠ "--welcome" →
        loadModuleSource env path paths =
          .err ("Invalid module name: " ++ path)) ∧
    (∀ (env : Env) (name : String), name.take 2 = "--" →
        mainModulePath env name = name) := by
  refine ⟨?_, ?_, ?_, ?_⟩
  · intro env paths
    unfold loadModuleSource
    rw [if_pos rfl]
  · intro env paths
    unfold loadModuleSource
    rw [if_neg (by decide), if_pos rfl]
  · intro env path paths h1 h2 h3
    unfold loadModuleSource
    rw [if_neg h2, if_neg h3, if_pos h1]
  · intro env name h
    unfold mainModulePath
    rw [if_pos h]

theorem claim_C7_virtual_modules_witness :
    loadModuleSource exEnv "--console" ["--console"] = .ok "console-src" ∧
    loadModuleSource exEnv "--welcome" [] = .ok "welcome-src" ∧
    ("--nope".take 2 = "--" ∧
     loadModuleSource exEnv "--nope" [] =
       .err "Invalid module name: --nope") ∧
    mainModulePath exEnv "--console" = "--console" :=
  ⟨claim_C7_virtual_modules.1 exEnv ["--console"],
   claim_C7_virtual_modules.2.1 exEnv [],
   ⟨by decide,
    claim_C7_virtual_modules.2.2.1 exEnv "--nope" [] (by decide) (by decide)
      (by decide)⟩,
   claim_C7_virtual_modules.2.2.2 exEnv "--console" (by decide)⟩

/-- C8: the load-failure diagnostic renders the load stack innermost
first: the most recently pushed path appears on the `    loading ` line
and each outer path follows on a `       from ` line, outermost last, all
through the base-path-relativizing map; concretely, for
main.js → util.js → helpers.js with helpers.js unreadable, the whole load
fails with the message naming helpers.js as `loading` and util.js then
main.js as `from`, and the main-module load still reports it and notifies
the delegate. -/
theorem claim_C8_diagnostic_chain :
    (∀ (rel : String → String) (p : String) (ps : List String),
        appendModulePath rel (ps ++ [p]) =
          "    loading " ++ rel p ++ "\n" ++
            String.join (ps.reverse.map
              fun q => "       from " ++ rel q ++ "\n")) ∧
    ((loadModuleTree diagEnv 4 "main.js" ["main.js"] initState).2 =
      .err ("File not found: helpers.js\n    loading helpers.js\n       from util.js\n       from main.js\n")) ∧
    ((loadMainModule diagEnv "main.js" initState 4).2 =
      [.report ("File not found: helpers.js\n    loading helpers.js\n       from util.js\n       from main.js\n"),
       .mainReady]) := by
  refine ⟨?_, by decide, by decide⟩
  intro rel p ps
  unfold appendModulePath
  rw [List.reverse_append, List.reverse_singleton, List.singleton_append]


/-- C1: at most one module record is ever created and registered per path:
a load request for an already-registered path (directly at `LoadModuleTree`
entry, or as a dependency edge in its request loop) returns the existing
record with the state unchanged — no second compilation — and every
registration updates the path→record and id→path indexes together, so
registry well-formedness (`IndexesAgree`, with fresh ids) is preserved by
every load. -/
theorem claim_C1_registry_unique :
    (∀ (env : Env) (fuel : Nat) (path : String) (paths : List String)
        (st : JsState) (m : Module),
        lookupA path st.modules = some m →
        loadModuleTree env (fuel + 1) path paths st = (st, .ok m)) ∧
    (∀ (env : Env) (tree) (dir spec : String) (rest paths : List String)
        (st : JsState) (m mdep : Module),
        isValidImport spec = true →
        lookupA (env.joinNormal dir spec) st.modules = some mdep →
        loadDeps env tree dir (spec :: rest) paths st m =
          loadDeps env tree dir rest paths st m) ∧
    (∀ (env : Env) (fuel : Nat) (path : String) (paths : List String)
        (st : JsState),
        WF st → WF (loadModuleTree env fuel path paths st).1) := by
  refine ⟨?_, ?_, ?_⟩
  · intro env fuel path paths st m h
    exact loadModuleTree_hit env fuel path paths st m h
  · intro env tree dir spec rest paths st m mdep hv hh
    exact loadDeps_cons_hit env tree dir spec rest paths st m mdep hv hh
  · intro env fuel path paths st hwf
    exact (loadModuleTree_WF env fuel path paths st hwf).1

theorem claim_C1_registry_unique_witness :
    (lookupA "a.js" oneModState.modules = some ⟨0, []⟩ ∧
     loadModuleTree exEnv 1 "a.js" ["a.js"] oneModState =
       (oneModState, .ok ⟨0, []⟩)) ∧
    (isValidImport "./a.js" = true ∧
     loadDeps diagEnv (fun _ _ s => (s, .outOfFuel)) "" ["./a.js"] ["a.js"]
         oneModState ⟨0, []⟩ =
       loadDeps diagEnv (fun _ _ s => (s, .outOfFuel)) "" [] ["a.js"]
         oneModState ⟨0, []⟩) ∧
    (WF initState ∧ WF (loadModuleTree exEnv 1 "a.js" ["a.js"] initState).1) :=
  ⟨⟨by decide,
    claim_C1_registry_unique.1 exEnv 0 "a.js" ["a.js"] oneModState ⟨0, []⟩
      (by decide)⟩,
   ⟨by decide,
    claim_C1_registry_unique.2.1 diagEnv (fun _ _ s => (s, .outOfFuel)) ""
      "./a.js" [] ["a.js"] oneModState ⟨0, []⟩ ⟨0, []⟩ (by decide) (by decide)⟩,
   ⟨wf_initState,
    claim_C1_registry_unique.2.2 exEnv 1 "a.js" ["a.js"] initState
      wf_initState⟩⟩

/-- C2: the depth-first load terminates on every finite import graph —
with fuel exceeding the number of not-yet-registered paths of an
import-closed universe containing the root, the load never exhausts its
fuel — and the cyclic pair `A.js` ↔ `B.js` loads and activates
successfully, each module ending up registered exactly once in both
indexes. -/
theorem claim_C2_termination_cycle :
    (∀ (env : Env) (U : Finset String) (fuel : Nat) (path : String)
        (paths : List String) (st : JsState),
        ClosedUnder env U → path ∈ U → missingCount U st < fuel →
        (loadModuleTree env fuel path paths st).2 ≠ .outOfFuel) ∧
    ((loadModuleTree cycEnv 3 "A.js" ["A.js"] initState).2 =
       .ok ⟨0, ["./B.js"]⟩ ∧
     (loadModuleByPath cycEnv "A.js" false initState 3).2.2 =
       .ok ⟨0, ["./B.js"]⟩ ∧
     ((loadModuleTree cycEnv 3 "A.js" ["A.js"] initState).1.modules.map
        Prod.fst) = ["B.js", "A.js"] ∧
     ((loadModuleTree cycEnv 3 "A.js" ["A.js"] initState).1.pathById.map
        Prod.snd) = ["B.js", "A.js"]) := by
  refine ⟨?_, by decide, by decide, by decide, by decide⟩
  intro env U fuel path paths st hcl hU hlt
  exact loadModuleTree_term env U hcl fuel path paths st hU hlt

theorem claim_C2_termination_cycle_witness :
    (ClosedUnder cycEnv cycU ∧ "A.js" ∈ cycU ∧
     missingCount cycU initState < 3 ∧
     (loadModuleTree cycEnv 3 "A.js" ["A.js"] initState).2 ≠ .outOfFuel) :=
  ⟨by decide, by decide, by decide,
   claim_C2_termination_cycle.1 cycEnv cycU 3 "A.js" ["A.js"] initState
     (by decide) (by decide) (by decide)⟩


/-- C3: at most one pending dynamic import per resolved path: a request
for a path that already has a pending entry returns that entry's promise
with the state — pending table and task queue included — unchanged; and
two requests in the same turn for the same resolved path leave exactly one
task posted and hand both callers the same resolver's promise, which
therefore settles to the same outcome. -/
theorem claim_C3_dynamic_dedup (env : Env) (ref spec : String) :
    (∀ (st : JsState) (r : Nat),
        isValidImport spec = true →
        lookupA (resolveDynamicPath env ref spec) st.dynamicImports = some r →
        importDynamicRequest env ref spec st = (st, .existing r)) ∧
    (∀ st : JsState,
        isValidImport spec = true →
        lookupA (resolveDynamicPath env ref spec) st.dynamicImports = none →
        (importDynamicRequest env ref spec st).2 =
          .newPending st.nextResolver ∧
        importDynamicRequest env ref spec
            (importDynamicRequest env ref spec st).1 =
          ((importDynamicRequest env ref spec st).1,
           .existing st.nextResolver) ∧
        (importDynamicRequest env ref spec st).1.taskQueue =
          st.taskQueue ++ [resolveDynamicPath env ref spec]) := by
  constructor
  · intro st r hv hl
    simp [importDynamicRequest, hv, hl]
  · intro st hv hl
    have h1 : importDynamicRequest env ref spec st =
        ({ st with
           dynamicImports :=
             (resolveDynamicPath env ref spec, st.nextResolver) ::
               st.dynamicImports
           nextResolver := st.nextResolver + 1
           taskQueue :=
             st.taskQueue ++ [resolveDynamicPath env ref spec] },
         .newPending st.nextResolver) := by
      simp [importDynamicRequest, hv, hl]
    rw [h1]
    refine ⟨rfl, ?_, rfl⟩
    simp [importDynamicRequest, hv, lookupA_cons]

theorem claim_C3_dynamic_dedup_witness :
    (isValidImport "./a.js" = true ∧
     lookupA (resolveDynamicPath diagEnv "<console>" "./a.js")
         { initState with dynamicImports := [("a.js", 7)] }.dynamicImports =
       some 7 ∧
     importDynamicRequest diagEnv "<console>" "./a.js"
         { initState with dynamicImports := [("a.js", 7)] } =
       ({ initState with dynamicImports := [("a.js", 7)] }, .existing 7)) ∧
    (lookupA (resolveDynamicPath diagEnv "<console>" "./a.js")
         initState.dynamicImports = none ∧
     (importDynamicRequest diagEnv "<console>" "./a.js"
         (importDynamicRequest diagEnv "<console>" "./a.js" initState).1 =
       ((importDynamicRequest diagEnv "<console>" "./a.js" initState).1,
        .existing 0))) :=
  ⟨⟨by decide, by decide,
    (claim_C3_dynamic_dedup diagEnv "<console>" "./a.js").1
      { initState with dynamicImports := [("a.js", 7)] } 7 (by decide)
      (by decide)⟩,
   ⟨by decide,
    ((claim_C3_dynamic_dedup diagEnv "<console>" "./a.js").2 initState
      (by decide) (by decide)).2.1⟩⟩

/-- C4: a dynamic import request with a valid specifier and no pending
entry for the resolved path never loads synchronously: it stores the
pending entry, appends exactly one task (carrying the resolved path) to
the task queue, and returns a fresh still-pending promise; the module
registry and id index are untouched — the state carries no registry
change at all, whether or not the target path is already registered
(no registry hypothesis appears), so the Module Graph Loader and Graph
Activator can only run inside `runDynamicImportTask` when the posted task
executes. -/
theorem claim_C4_dynamic_defers (env : Env) (ref spec : String)
    (st : JsState) (hv : isValidImport spec = true)
    (hnp : lookupA (resolveDynamicPath env ref spec) st.dynamicImports =
      none) :
    importDynamicRequest env ref spec st =
      ({ st with
         dynamicImports :=
           (resolveDynamicPath env ref spec, st.nextResolver) ::
             st.dynamicImports
         nextResolver := st.nextResolver + 1
         taskQueue := st.taskQueue ++ [resolveDynamicPath env ref spec] },
       .newPending st.nextResolver) ∧
    (importDynamicRequest env ref spec st).1.modules = st.modules ∧
    (importDynamicRequest env ref spec st).1.pathById = st.pathById := by
  refine ⟨?_, ?_, ?_⟩ <;> simp [importDynamicRequest, hv, hnp]

theorem claim_C4_dynamic_defers_witness :
    (isValidImport "./a.js" = true ∧
     lookupA (resolveDynamicPath diagEnv "<console>" "./a.js")
         oneModState.dynamicImports = none ∧
     lookupA (resolveDynamicPath diagEnv "<console>" "./a.js")
         oneModState.modules = some ⟨0, []⟩) ∧
    ((importDynamicRequest diagEnv "<console>" "./a.js" oneModState).1.modules =
       oneModState.modules ∧
     (importDynamicRequest diagEnv "<console>" "./a.js"
         oneModState).1.pathById = oneModState.pathById) :=
  ⟨⟨by decide, by decide, by decide⟩,
   ⟨(claim_C4_dynamic_defers diagEnv "<console>" "./a.js" oneModState
       (by decide) (by decide)).2.1,
    (claim_C4_dynamic_defers diagEnv "<console>" "./a.js" oneModState
       (by decide) (by decide)).2.2⟩⟩

/-- C10: the result-suppression flag is consumed only by a
compilation-successful `ExecuteScript` call: a successful run with the
flag set returns no result and clears it, a throwing run returns no
result, clears it and reports, but a compile failure returns no result
with the state — flag included — fully untouched, so a set flag carries
over to the next call. -/
theorem claim_C10_suppress_flag (env : Env) (st : JsState) :
    (∀ src m, env.script src = .compileError m →
        executeScript env src st = (none, st, [.report m])) ∧
    (∀ src m, env.script src = .runError m →
        executeScript env src st =
          (none, { st with suppressNextScriptResult := false },
           [.report m])) ∧
    (∀ src v, env.script src = .value v →
        st.suppressNextScriptResult = true →
        executeScript env src st =
          (none, { st with suppressNextScriptResult := false }, [])) ∧
    (∀ src v, env.script src = .value v →
        st.suppressNextScriptResult = false →
        executeScript env src st = (some v, st, [])) ∧
    (∀ src src2 m v, env.script src = .compileError m →
        env.script src2 = .value v →
        st.suppressNextScriptResult = true →
        (executeScript env src2 (executeScript env src st).2.1).1 = none) := by
  refine ⟨?_, ?_, ?_, ?_, ?_⟩
  · intro src m h
    simp [executeScript, h]
  · intro src m h
    simp [executeScript, h]
  · intro src v h hs
    simp [executeScript, h, hs]
  · intro src v h hs
    simp [executeScript, h, hs]
  · intro src src2 m v h h2 hs
    simp [executeScript, h, h2, hs]

theorem claim_C10_suppress_flag_witness :
    (exEnv.script "bad(" =
       .compileError "SyntaxError: unexpected end of input" ∧
     executeScript exEnv "bad(" (suppressNextResult initState) =
       (none, suppressNextResult initState,
        [.report "SyntaxError: unexpected end of input"])) ∧
    (exEnv.script "1 + 1" = .value "1 + 1" ∧
     (suppressNextResult initState).suppressNextScriptResult = true ∧
     (executeScript exEnv "1 + 1"
        (executeScript exEnv "bad("
          (suppressNextResult initState)).2.1).1 = none) :=
  ⟨⟨by decide,
    (claim_C10_suppress_flag exEnv (suppressNextResult initState)).1 "bad("
      "SyntaxError: unexpected end of input" (by decide)⟩,
   ⟨by decide, by decide,
    (claim_C10_suppress_flag exEnv (suppressNextResult initState)).2.2.2.2
      "bad(" "1 + 1" "SyntaxError: unexpected end of input" "1 + 1"
      (by decide) (by decide) (by decide)⟩⟩


theorem count_mainReady_nil : ([] : List Event).count .mainReady = 0 := rfl

theorem count_mainReady_single : [Event.mainReady].count .mainReady = 1 := rfl

theorem count_mainReady_report (e : String) :
    [Event.report e, Event.mainReady].count .mainReady = 1 := rfl

/-- C5: every main-module load eventually notifies the delegate exactly
once, in every branch: a load, compile, instantiate or synchronous
rejection failure produces the report of the exception followed by the
notification; a synchronously fulfilled evaluation notifies directly; a
pending evaluation notifies at settlement, with the rejection reported
first when it rejects. -/
theorem claim_C5_main_ready (env : Env) (name : String) (st : JsState)
    (fuel : Nat)
    (hf : (loadModuleByPath env (mainModulePath env name) true st
      fuel).2.2 ≠ .outOfFuel) :
    ((loadMainModule env name st fuel).2.count .mainReady = 1) ∧
    (∀ e, (loadModuleByPath env (mainModulePath env name) true st
        fuel).2.2 = .err e →
      (loadMainModule env name st fuel).2 = [.report e, .mainReady]) ∧
    (∀ m e, (loadModuleByPath env (mainModulePath env name) true st
        fuel).2.2 = .ok m →
      env.evaluate (mainModulePath env name) = .pending (.sRejected e) →
      (loadMainModule env name st fuel).2 = [.report e, .mainReady]) := by
  rcases hload : loadModuleTree env fuel (mainModulePath env name)
    [mainModulePath env name] st with ⟨st1, out⟩
  cases out with
  | outOfFuel => exact absurd (by simp [loadModuleByPath, hload]) hf
  | err e =>
    have hbp : loadModuleByPath env (mainModulePath env name) true st fuel =
        (st1, [], .err e) := by simp [loadModuleByPath, hload]
    have hlm : loadMainModule env name st fuel =
        (st1, [.report e, .mainReady]) := by simp [loadMainModule, hbp]
    refine ⟨by rw [hlm]; exact count_mainReady_report e, ?_, ?_⟩
    · intro e' he
      rw [hbp] at he
      cases he
      rw [hlm]
    · intro m e' hok heval
      rw [hbp] at hok
      simp at hok
  | ok m =>
    cases hinst : env.instantiate (mainModulePath env name) with
    | some e =>
      have hbp : loadModuleByPath env (mainModulePath env name) true st
          fuel = (st1, [], .err e) := by
        simp [loadModuleByPath, hload, hinst]
      have hlm : loadMainModule env name st fuel =
          (st1, [.report e, .mainReady]) := by simp [loadMainModule, hbp]
      refine ⟨by rw [hlm]; exact count_mainReady_report e, ?_, ?_⟩
      · intro e' he
        rw [hbp] at he
        cases he
        rw [hlm]
      · intro m' e' hok heval
        rw [hbp] at hok
        simp at hok
    | none =>
      cases heval : env.evaluate (mainModulePath env name) with
      | evalThrow e =>
        have hbp : loadModuleByPath env (mainModulePath env name) true st
            fuel = (st1, [], .err e) := by
          simp [loadModuleByPath, hload, hinst, heval]
        have hlm : loadMainModule env name st fuel =
            (st1, [.report e, .mainReady]) := by simp [loadMainModule, hbp]
        refine ⟨by rw [hlm]; exact count_mainReady_report e, ?_, ?_⟩
        · intro e' he
          rw [hbp] at he
          cases he
          rw [hlm]
        · intro m' e' hok hpend
          cases hpend
      | rejected e =>
        have hbp : loadModuleByPath env (mainModulePath env name) true st
            fuel = (st1, [], .err e) := by
          simp [loadModuleByPath, hload, hinst, heval]
        have hlm : loadMainModule env name st fuel =
            (st1, [.report e, .mainReady]) := by simp [loadMainModule, hbp]
        refine ⟨by rw [hlm]; exact count_mainReady_report e, ?_, ?_⟩
        · intro e' he
          rw [hbp] at he
          cases he
          rw [hlm]
        · intro m' e' hok hpend
          cases hpend
      | fulfilled =>
        have hbp : loadModuleByPath env (mainModulePath env name) true st
            fuel = (st1, [.mainReady], .ok m) := by
          simp [loadModuleByPath, hload, hinst, heval]
        have hlm : loadMainModule env name st fuel = (st1, [.mainReady]) := by
          simp [loadMainModule, hbp]
        refine ⟨by rw [hlm]; exact count_mainReady_single, ?_, ?_⟩
        · intro e' he
          rw [hbp] at he
          simp at he
        · intro m' e' hok hpend
          cases hpend
      | pending sett =>
        cases sett with
        | sFulfilled =>
          have hbp : loadModuleByPath env (mainModulePath env name) true st
              fuel = (st1, [.mainReady], .ok m) := by
            simp [loadModuleByPath, hload, hinst, heval]
          have hlm : loadMainModule env name st fuel =
              (st1, [.mainReady]) := by simp [loadMainModule, hbp]
          refine ⟨by rw [hlm]; exact count_mainReady_single, ?_, ?_⟩
          · intro e' he
            rw [hbp] at he
            simp at he
          · intro m' e' hok hpend
            cases hpend
        | sRejected e =>
          have hbp : loadModuleByPath env (mainModulePath env name) true st
              fuel = (st1, [.report e, .mainReady], .ok m) := by
            simp [loadModuleByPath, hload, hinst, heval]
          have hlm : loadMainModule env name st fuel =
              (st1, [.report e, .mainReady]) := by simp [loadMainModule, hbp]
          refine ⟨by rw [hlm]; exact count_mainReady_report e, ?_, ?_⟩
          · intro e' he
            rw [hbp] at he
            simp at he
          · intro m' e' hok hpend
            cases hpend
            rw [hlm]

theorem claim_C5_main_ready_witness :
    ((loadModuleByPath exEnv (mainModulePath exEnv "a.js") true initState
        2).2.2 ≠ .outOfFuel ∧
     (loadMainModule exEnv "a.js" initState 2).2.count .mainReady = 1) ∧
    ((loadModuleByPath diagEnv (mainModulePath diagEnv "main.js") true
        initState 4).2.2 ≠ .outOfFuel ∧
     (loadMainModule diagEnv "main.js" initState 4).2.count .mainReady = 1) :=
  ⟨⟨by decide,
    (claim_C5_main_ready exEnv "a.js" initState 2 (by decide)).1⟩,
   ⟨by decide,
    (claim_C5_main_ready diagEnv "main.js" initState 4 (by decide)).1⟩⟩

/-- C9: a failed graph load removes or modifies nothing that was
registered before the failure: from a well-formed state, if
`LoadModuleTree` returns the error outcome, every prior path→record entry
and every prior id→path entry still looks up unchanged in the resulting
state. -/
theorem claim_C9_no_rollback (env : Env) (fuel : Nat) (path : String)
    (paths : List String) (st st' : JsState) (e : String) (hwf : WF st)
    (hres : loadModuleTree env fuel path paths st = (st', .err e)) :
    ModulesPres st st' ∧ ByIdPres st st' := by
  have h1 := loadModuleTree_modulesPres env fuel path paths st
  have h2 := (loadModuleTree_WF env fuel path paths st hwf).2
  rw [hres] at h1 h2
  exact ⟨h1, h2⟩

theorem claim_C9_no_rollback_witness :
    WF oneModState ∧
    lookupA "a.js" (loadModuleTree diagEnv 4 "main.js" ["main.js"]
      oneModState).1.modules = some ⟨0, []⟩ ∧
    lookupA 0 (loadModuleTree diagEnv 4 "main.js" ["main.js"]
      oneModState).1.pathById = some "a.js" :=
  ⟨wf_oneModState,
   (claim_C9_no_rollback diagEnv 4 "main.js" ["main.js"] oneModState
      (loadModuleTree diagEnv 4 "main.js" ["main.js"] oneModState).1
      ("File not found: helpers.js\n    loading helpers.js\n       from util.js\n       from main.js\n")
      wf_oneModState (by decide)).1 "a.js" ⟨0, []⟩ (by decide),
   (claim_C9_no_rollback diagEnv 4 "main.js" ["main.js"] oneModState
      (loadModuleTree diagEnv 4 "main.js" ["main.js"] oneModState).1
      ("File not found: helpers.js\n    loading helpers.js\n       from util.js\n       from main.js\n")
      wf_oneModState (by decide)).2 0 "a.js" (by decide)⟩

end WindowJs
